import Mathlib

/-!
# Verification development for the server-side connection and broadcast engine

Shallow embedding of `src/server/index.js`:

* `WebsocketManager` (`connections`, `addConnections`, `removeConnection`,
  `broadcast`),
* `getChannelByAddress`, `wsValidateHook`,
* the route `handler` with its `message` and `close` listeners.

Modelling conventions.

* A socket is an opaque handle; only its identity (`===`) matters to the
  registry, so `Socket := Nat`.  Its `readyState` is owned by the transport and
  is read through a function `readyState : Socket → Nat`.
* `connections` is a JavaScript `Map`: an insertion-ordered association list
  with pairwise distinct keys (`MapWF`).  `Map.prototype.set` overwrites in
  place when the key is present and appends otherwise; `Map.prototype.delete`
  drops the entry of the key.
* Side effects on sockets are recorded as a list of `Event`s, in program
  order.  `Event.send s v` stands for `s.send(JSON.stringify(v))`.
* Built-ins and external libraries are parameters: `toLowerCase`
  (`String.prototype.toLowerCase`), `now` (`new Date().toISOString()`),
  `jsonParse` (`JSON.parse`, `none` when it throws), `bufferToString`
  (`Buffer.from(payload, 'base64').toString('utf-8')`), `vaValidate`
  (`va.validate` of asyncapi-validator, `Except.error msg` when it throws an
  error whose `message` is `msg`) and `channels` (the parsed AsyncAPI
  document's channel list as `(address, id)` pairs).
-/

namespace EdaWorkshops

/-! ## Data model -/

/-- Identity of a WebSocket object (compared with `===` / `!==`). -/
abbrev Socket := Nat

/-- User information taken from `request.query`: `{username, color}`. -/
structure User where
  username : String
  color : String
  deriving DecidableEq, Repr

/-- JSON values, as produced by `JSON.parse` and consumed by `JSON.stringify`. -/
inductive Json where
  | null
  | bool (b : Bool)
  | num (n : Int)
  | str (s : String)
  | arr (items : List Json)
  | obj (fields : List (String × Json))

/-- Property access `v.key` on a parsed value: `none` stands for `undefined`. -/
def Json.field? : Json → String → Option Json
  | Json.obj fields, key => fields.lookup key
  | _, _ => none

/-- Observable effects on sockets. `send s v` is `s.send(JSON.stringify(v))`,
`close s` is `s.close()`. -/
inductive Event where
  | send (dest : Socket) (payload : Json)
  | close (s : Socket)

/-- The payloads sent to socket `s`, in order. -/
def sentTo (s : Socket) : List Event → List Json
  | [] => []
  | Event.send t v :: rest => if t = s then v :: sentTo s rest else sentTo s rest
  | Event.close _ :: rest => sentTo s rest

/-- Whether `s.close()` occurs in the event list. -/
def closed (s : Socket) : List Event → Bool
  | [] => false
  | Event.send _ _ :: rest => closed s rest
  | Event.close t :: rest => decide (t = s) || closed s rest

/-- The `connections` map: insertion-ordered entries `socket ↦ user`. -/
abbrev ConnMap := List (Socket × User)

/-- The keys of a map, in insertion order. -/
def mapKeys (m : ConnMap) : List Socket := m.map Prod.fst

/-- The values of a map, in insertion order (`connections.values()`). -/
def mapValues (m : ConnMap) : List User := m.map Prod.snd

/-- A JavaScript `Map` never holds a key twice. -/
def MapWF (m : ConnMap) : Prop := (mapKeys m).Nodup

/-- The getter `Map.prototype.size`. -/
def mapSize (m : ConnMap) : Nat := m.length

/-- The method `Map.prototype.get`. -/
def mapGet (m : ConnMap) (s : Socket) : Option User := m.lookup s

/-- The method `Map.prototype.has`. -/
def mapHas (m : ConnMap) (s : Socket) : Bool := (mapKeys m).contains s

/-- The method `Map.prototype.set`: overwrite in place when the key is present,
append otherwise. -/
def mapSet : ConnMap → Socket → User → ConnMap
  | [], s, u => [(s, u)]
  | (k, v) :: rest, s, u => if k = s then (s, u) :: rest else (k, v) :: mapSet rest s u

/-- The method `Map.prototype.delete`: drop the entry of key `s`. -/
def mapDelete (m : ConnMap) (s : Socket) : ConnMap := m.filter (fun e => e.1 != s)

/-- The constant `WebSocket.OPEN`. -/
def WebSocket_OPEN : Nat := 1

/-- The constant `WebSocket.CLOSED`. -/
def WebSocket_CLOSED : Nat := 3

/-! ## WebsocketManager -/

/-- The duplicate-colour error object of `addConnections`. -/
def colorError (now : String) : Json :=
  Json.obj [("type", Json.str "error"),
            ("text", Json.str "user with this color already exists"),
            ("timestamp", Json.str now)]

/-- The duplicate-username error object of `addConnections`. -/
def usernameError (now : String) : Json :=
  Json.obj [("type", Json.str "error"),
            ("message", Json.str "user with this name already exists"),
            ("timestamp", Json.str now)]

/-- The join acknowledgment `{num_connections, status: 1}`. -/
def joinedMsg (n : Nat) : Json :=
  Json.obj [("num_connections", Json.num n), ("status", Json.num 1)]

/-- The `for (const connection of this.connections.values())` loop of
`addConnections`: `some evs` when an iteration returns after the effects `evs`,
`none` when the loop runs to its end. -/
def checkDuplicates (toLowerCase : String → String) (now : String) (socket : Socket)
    (user : User) : List User → Option (List Event)
  | [] => none
  | connection :: rest =>
    if toLowerCase connection.color = toLowerCase user.color then
      some [Event.send socket (colorError now), Event.close socket]
    else if toLowerCase connection.username = toLowerCase user.username then
      some [Event.send socket (usernameError now), Event.close socket]
    else checkDuplicates toLowerCase now socket user rest

/-- The method `WebsocketManager.addConnections(socket, user)`: the new
`connections` and the effects on the socket. -/
def addConnections (toLowerCase : String → String) (now : String) (connections : ConnMap)
    (socket : Socket) (user : User) : ConnMap × List Event :=
  match (if mapSize connections > 0 then
           checkDuplicates toLowerCase now socket user (mapValues connections)
         else none) with
  | some evs => (connections, evs)
  | none =>
    let connections1 := mapSet connections socket user
    (connections1, [Event.send socket (joinedMsg (mapSize connections1))])

/-- The method `WebsocketManager.removeConnection(socket)`. -/
def removeConnection (connections : ConnMap) (socket : Socket) : ConnMap :=
  mapDelete connections socket

/-- The method `WebsocketManager.broadcast(message, eSocket)`: the sends it
performs, in `forEach` order. -/
def broadcast (readyState : Socket → Nat) (connections : ConnMap) (message : Json)
    (eSocket : Socket) : List Event :=
  match connections with
  | [] => []
  | (socket, _) :: rest =>
    if socket ≠ eSocket ∧ readyState socket = WebSocket_OPEN then
      Event.send socket message :: broadcast readyState rest message eSocket
    else broadcast readyState rest message eSocket

/-! ## Validation hook and route handler -/

/-- The function `getChannelByAddress(path)`: id of the first channel whose
address is `path`, `none` (`undefined`) when there is none. -/
def getChannelByAddress (channels : List (String × String)) (path : String) : Option String :=
  match channels with
  | [] => none
  | (address, id) :: rest =>
    if address = path then some id else getChannelByAddress rest path

/-- The expression `pathname.split('?')[0]`. -/
def beforeQuery (url : String) : String := String.mk (url.data.takeWhile (fun c => c != '?'))

/-- The error object sent by `wsValidateHook` when validation throws. -/
def validationError (text now : String) : Json :=
  Json.obj [("type", Json.str "error"), ("text", Json.str text), ("timestamp", Json.str now)]

/-- The error object sent by the `catch` of the `message` listener. -/
def internalError (now : String) : Json :=
  Json.obj [("type", Json.str "error"), ("text", Json.str "Internal Server Error"),
            ("timestamp", Json.str now)]

/-- Parameters standing for the built-ins and libraries the server calls. -/
structure Env where
  /-- The method `String.prototype.toLowerCase`. -/
  toLowerCase : String → String
  /-- The expression `new Date().toISOString()`. -/
  now : String
  /-- The expression `Buffer.from(payload, 'base64').toString('utf-8')`. -/
  bufferToString : String → String
  /-- The function `JSON.parse`; `none` when it throws. -/
  jsonParse : String → Option Json
  /-- The channels of the parsed AsyncAPI document as `(address, id)`. -/
  channels : List (String × String)
  /-- The call `va.validate(key, message, channel, operation)`;
  `Except.error msg` when it throws an error with that message. -/
  vaValidate : String → Json → Option String → String → Except String Unit
  /-- The property `socket.readyState`. -/
  readyState : Socket → Nat

/-- The validator returned by `wsValidateHook(socket)`, applied to `message` and a request with
`request.url = url`: the returned boolean and the effects. -/
def wsValidateHook (env : Env) (socket : Socket) (message : Json) (url : String) :
    Bool × List Event :=
  let channel := getChannelByAddress env.channels (beforeQuery url)
  match env.vaValidate "chat" message channel "send" with
  | Except.ok _ => (true, [])
  | Except.error text => (false, [Event.send socket (validationError text env.now)])

/-- The `socket.on('message', ...)` listener of `handler`. -/
def onMessage (env : Env) (connections : ConnMap) (socket : Socket) (url : String)
    (payload : String) : ConnMap × List Event :=
  let message := env.bufferToString payload
  match env.jsonParse message with
  | none => (connections, [Event.send socket (internalError env.now)])
  | some parsed =>
    match wsValidateHook env socket parsed url with
    | (true, evs) => (connections, evs ++ broadcast env.readyState connections parsed socket)
    | (false, evs) => (connections, evs)

/-- The `socket.on('close', ...)` listener of `handler`. -/
def onClose (connections : ConnMap) (socket : Socket) : ConnMap :=
  removeConnection connections socket

/-- Transport notifications delivered to the server. -/
inductive Input where
  | connect (socket : Socket) (url : String) (query : User)
  | message (socket : Socket) (payload : String)
  | close (socket : Socket)

/-- Server state: the manager's `connections` and the sockets on which `handler` has registered
its listeners, each with the request URL captured by the closure. -/
structure Srv where
  connections : ConnMap
  listeners : List (Socket × String)

/-- The initial server: `new WebsocketManager()` and no connection handled yet. -/
def Srv.init : Srv := ⟨[], []⟩

/-- One transport notification. `connect` runs `handler(socket, request)`: `addConnections`, then
both listeners are registered whatever the outcome. `message` and `close` run the listener when
one is registered on that socket. -/
def Srv.step (env : Env) (σ : Srv) : Input → Srv × List Event
  | Input.connect socket url query =>
    let r := addConnections env.toLowerCase env.now σ.connections socket query
    (⟨r.1, (socket, url) :: σ.listeners⟩, r.2)
  | Input.message socket payload =>
    match σ.listeners.lookup socket with
    | none => (σ, [])
    | some url =>
      let r := onMessage env σ.connections socket url payload
      (⟨r.1, σ.listeners⟩, r.2)
  | Input.close socket =>
    match σ.listeners.lookup socket with
    | none => (σ, [])
    | some _ => (⟨onClose σ.connections socket, σ.listeners⟩, [])

/-- Run a sequence of notifications, collecting the effects in order. -/
def Srv.run (env : Env) : Srv → List Input → Srv × List Event
  | σ, [] => (σ, [])
  | σ, i :: rest =>
    let r := Srv.step env σ i
    let r2 := Srv.run env r.1 rest
    (r2.1, r.2 ++ r2.2)

/-- Calls on a `WebsocketManager`. -/
inductive Call where
  | add (socket : Socket) (user : User)
  | remove (socket : Socket)

/-- Apply one call to `connections`. -/
def applyCall (toLowerCase : String → String) (now : String) (connections : ConnMap) :
    Call → ConnMap
  | Call.add socket user => (addConnections toLowerCase now connections socket user).1
  | Call.remove socket => removeConnection connections socket

/-- Apply a sequence of calls, left to right. -/
def applyCalls (toLowerCase : String → String) (now : String) (connections : ConnMap)
    (calls : List Call) : ConnMap :=
  calls.foldl (applyCall toLowerCase now) connections

/-- ASCII lower-casing; agrees with `String.prototype.toLowerCase` on ASCII strings. Used only to
evaluate the model on concrete ASCII inputs. -/
def asciiLower (s : String) : String := String.mk (s.data.map Char.toLower)

/-! ## A concrete environment for evaluating the model -/

/-- Text of a valid chat frame. -/
def chatText : String :=
  "\x7b\"type\":\"chat\",\"text\":\"hi\",\"timestamp\":\"2024-01-01T00:00:00Z\"\x7d"

/-- The value `JSON.parse` returns on `chatText`. -/
def chatMsg : Json :=
  Json.obj [("type", Json.str "chat"), ("text", Json.str "hi"),
            ("timestamp", Json.str "2024-01-01T00:00:00Z")]

/-- A validator that accepts, for key `chat` on channel `root` in direction `send`, the objects
whose `type` is `chat`, and throws otherwise. -/
def demoValidate (key : String) (m : Json) (channel : Option String) (operation : String) :
    Except String Unit :=
  if key = "chat" ∧ channel = some "root" ∧ operation = "send" then
    match m.field? "type" with
    | some (Json.str "chat") => Except.ok ()
    | _ => Except.error "invalid message"
  else Except.error "unknown channel"

/-- A concrete environment: ASCII lower-casing, a fixed clock, frames that arrive as UTF-8 text,
a parser that knows `chatText`, the single channel `root` at address `/`, and sockets `1` and
`3` OPEN, every other socket CLOSING. -/
def demoEnv : Env where
  toLowerCase := asciiLower
  now := "2024-01-01T00:00:00.000Z"
  bufferToString := fun payload => payload
  jsonParse := fun text => if text = chatText then some chatMsg else none
  channels := [("/", "root")]
  vaValidate := demoValidate
  readyState := fun s => if s = 1 ∨ s = 3 then WebSocket_OPEN else 2

/-- Text of a drawing frame that lacks `positionY`. -/
def drawingText : String :=
  "\x7b\"type\":\"drawing\",\"positionX\":3,\"color\":\"red\"\x7d"

/-- The value `JSON.parse` returns on `drawingText`. -/
def drawingMsg : Json :=
  Json.obj [("type", Json.str "drawing"), ("positionX", Json.num 3), ("color", Json.str "red")]

/-- A concrete environment with two channels, `other` at `/other` declared before `root` at `/`,
and a parser that knows `chatText` and `drawingText`. -/
def gateEnv : Env where
  toLowerCase := asciiLower
  now := "2024-01-01T00:00:00.000Z"
  bufferToString := fun payload => payload
  jsonParse := fun text =>
    if text = chatText then some chatMsg
    else if text = drawingText then some drawingMsg
    else none
  channels := [("/other", "other"), ("/", "root")]
  vaValidate := demoValidate
  readyState := fun s => if s = 1 ∨ s = 3 then WebSocket_OPEN else 2

/-! ## Vocabulary of the statements -/

/-- A stored identity `connection` collides with the candidate `user`: equal colour or equal
username after `toLowerCase`. -/
def collides (toLowerCase : String → String) (user connection : User) : Prop :=
  toLowerCase connection.color = toLowerCase user.color ∨
    toLowerCase connection.username = toLowerCase user.username

instance (toLowerCase : String → String) (user connection : User) :
    Decidable (collides toLowerCase user connection) := by
  unfold collides; infer_instance

/-- Two entries of `connections` are compatible: different sockets, and usernames and colours
that differ after `toLowerCase`. -/
def compatible (toLowerCase : String → String) (a b : Socket × User) : Prop :=
  a.1 ≠ b.1 ∧ toLowerCase a.2.username ≠ toLowerCase b.2.username ∧
    toLowerCase a.2.color ≠ toLowerCase b.2.color

/-- The error object `e` carries the human-readable reason `reason` (under `text` or under
`message`). -/
def carriesReason (e : Json) (reason : String) : Prop :=
  e.field? "text" = some (Json.str reason) ∨ e.field? "message" = some (Json.str reason)

/-- The request path of a URL, in the spec's words "this same path, ignoring the query string":
`path` holds no `?`, and `url` is `path` alone, or `path` followed by `?` and a query. -/
def IsPathOf (url path : String) : Prop :=
  '?' ∉ path.data ∧ (url = path ∨ ∃ query : String, url = path ++ "?" ++ query)

/-- The channel resolved from a path: the id of the first declared channel whose address is
`path`, and no channel when no declared address is `path`. -/
def ResolvesTo (channels : List (String × String)) (path : String) : Option String → Prop
  | none => ∀ c ∈ channels, c.1 ≠ path
  | some id => ∃ pre post, channels = pre ++ (path, id) :: post ∧ ∀ c ∈ pre, c.1 ≠ path

/-- The schema validator accepts the decoded message `m` for the `send` direction on
`channel`. -/
def accepts (env : Env) (channel : Option String) (m : Json) : Prop :=
  env.vaValidate "chat" m channel "send" = Except.ok ()

instance (m : ConnMap) : Decidable (MapWF m) := by
  unfold MapWF; infer_instance

/-- A call that is not `addConnections(s, _)`. -/
def Call.notAdd (s : Socket) : Call → Prop
  | Call.add socket _ => socket ≠ s
  | Call.remove _ => True

/-! ## Lemmas on the map operations -/

theorem mem_mapSet {m : ConnMap} {s : Socket} {u : User} {e : Socket × User}
    (h : e ∈ mapSet m s u) : e ∈ m ∨ e = (s, u) := by
  induction m with
  | nil => simp [mapSet] at h; exact Or.inr h
  | cons hd tl ih =>
    obtain ⟨k, v⟩ := hd
    by_cases hk : k = s
    · simp [mapSet, hk] at h
      rcases h with h | h
      · exact Or.inr h
      · exact Or.inl (List.mem_cons_of_mem _ h)
    · simp [mapSet, hk] at h
      rcases h with h | h
      · exact Or.inl (by simp [h])
      · rcases ih h with h1 | h1
        · exact Or.inl (List.mem_cons_of_mem _ h1)
        · exact Or.inr h1

theorem mapKeys_mapSet_of_not_mem {m : ConnMap} {s : Socket} (u : User)
    (h : s ∉ mapKeys m) : mapSet m s u = m ++ [(s, u)] := by
  induction m with
  | nil => rfl
  | cons hd tl ih =>
    obtain ⟨k, v⟩ := hd
    simp [mapKeys] at h
    have hk : ¬ k = s := fun hh => h.1 hh.symm
    have ht : s ∉ mapKeys tl := by simpa [mapKeys] using h.2
    simp [mapSet, hk, ih ht]

theorem mem_mapKeys_mapSet_self (m : ConnMap) (s : Socket) (u : User) :
    s ∈ mapKeys (mapSet m s u) := by
  induction m with
  | nil => simp [mapSet, mapKeys]
  | cons hd tl ih =>
    obtain ⟨k, v⟩ := hd
    by_cases hk : k = s
    · simp [mapSet, hk, mapKeys]
    · simp only [mapSet, hk, if_false, mapKeys, List.map_cons]
      exact List.mem_cons_of_mem _ ih

theorem mapGet_mapSet_self (m : ConnMap) (s : Socket) (u : User) :
    mapGet (mapSet m s u) s = some u := by
  induction m with
  | nil => simp [mapSet, mapGet, List.lookup]
  | cons hd tl ih =>
    obtain ⟨k, v⟩ := hd
    by_cases hk : k = s
    · simp [mapSet, hk, mapGet, List.lookup]
    · have hb : (s == k) = false := by simpa using fun hh : s = k => hk hh.symm
      simp only [mapSet, hk, if_false, mapGet, List.lookup, hb]
      exact ih

theorem mapHas_eq_true_iff (m : ConnMap) (s : Socket) : mapHas m s = true ↔ s ∈ mapKeys m := by
  simp [mapHas]

theorem mapHas_eq_false_iff (m : ConnMap) (s : Socket) : mapHas m s = false ↔ s ∉ mapKeys m := by
  rw [← mapHas_eq_true_iff]; simp

theorem mapKeys_mapDelete (m : ConnMap) (s : Socket) :
    mapKeys (mapDelete m s) = (mapKeys m).filter (fun k => k != s) := by
  induction m with
  | nil => rfl
  | cons hd tl ih =>
    obtain ⟨k, v⟩ := hd
    by_cases hk : k = s
    · simpa [mapDelete, mapKeys, hk] using ih
    · simpa [mapDelete, mapKeys, hk] using ih

theorem mapDelete_of_not_mem {m : ConnMap} {s : Socket} (h : s ∉ mapKeys m) :
    mapDelete m s = m := by
  unfold mapDelete
  rw [List.filter_eq_self]
  intro e he
  have : e.1 ∈ mapKeys m := List.mem_map_of_mem _ he
  simpa using fun hh : e.1 = s => h (hh ▸ this)

theorem MapWF_mapDelete {m : ConnMap} (h : MapWF m) (s : Socket) : MapWF (mapDelete m s) := by
  unfold MapWF
  rw [mapKeys_mapDelete]
  exact h.filter _

theorem mapKeys_mapSet_of_mem {m : ConnMap} {s : Socket} (u : User) (h : s ∈ mapKeys m) :
    mapKeys (mapSet m s u) = mapKeys m := by
  induction m with
  | nil => simp [mapKeys] at h
  | cons hd tl ih =>
    obtain ⟨k, v⟩ := hd
    by_cases hk : k = s
    · simp [mapSet, hk, mapKeys]
    · have ht : s ∈ mapKeys tl := by
        simp [mapKeys] at h
        rcases h with h | h
        · exact absurd h.symm hk
        · simpa [mapKeys] using h
      have := ih ht
      simp [mapSet, hk, mapKeys] at this ⊢
      exact this

theorem MapWF_mapSet {m : ConnMap} (h : MapWF m) (s : Socket) (u : User) :
    MapWF (mapSet m s u) := by
  unfold MapWF at *
  by_cases hs : s ∈ mapKeys m
  · rw [mapKeys_mapSet_of_mem u hs]; exact h
  · rw [mapKeys_mapSet_of_not_mem u hs]
    simp only [mapKeys, List.map_append, List.map_cons, List.map_nil]
    rw [List.nodup_append]
    refine ⟨h, List.nodup_singleton _, ?_⟩
    intro a ha hb
    simp at hb
    subst hb
    exact hs ha

/-! ## Lemmas on `addConnections` -/

theorem checkDuplicates_eq_none_iff (toLowerCase : String → String) (now : String)
    (socket : Socket) (user : User) (vs : List User) :
    checkDuplicates toLowerCase now socket user vs = none ↔
      ∀ c ∈ vs, ¬ collides toLowerCase user c := by
  induction vs with
  | nil => simp [checkDuplicates]
  | cons c rest ih =>
    by_cases h1 : toLowerCase c.color = toLowerCase user.color
    · simp [checkDuplicates, h1, collides]
    · by_cases h2 : toLowerCase c.username = toLowerCase user.username
      · simp [checkDuplicates, h1, h2, collides]
      · simp [checkDuplicates, h1, h2, collides, ih]

theorem checkDuplicates_some (toLowerCase : String → String) (now : String)
    (socket : Socket) (user : User) (vs : List User) (evs : List Event)
    (h : checkDuplicates toLowerCase now socket user vs = some evs) :
    ∃ c, vs.find? (fun c => decide (collides toLowerCase user c)) = some c ∧
      (toLowerCase c.color = toLowerCase user.color →
        evs = [Event.send socket (colorError now), Event.close socket]) ∧
      (toLowerCase c.color ≠ toLowerCase user.color →
        evs = [Event.send socket (usernameError now), Event.close socket]) := by
  induction vs with
  | nil => simp [checkDuplicates] at h
  | cons c rest ih =>
    by_cases h1 : toLowerCase c.color = toLowerCase user.color
    · refine ⟨c, by simp [List.find?, collides, h1], fun _ => ?_, fun hn => absurd h1 hn⟩
      simp [checkDuplicates, h1] at h
      exact h.symm
    · by_cases h2 : toLowerCase c.username = toLowerCase user.username
      · refine ⟨c, by simp [List.find?, collides, h2], fun hh => absurd hh h1, fun _ => ?_⟩
        simp [checkDuplicates, h1, h2] at h
        exact h.symm
      · simp only [checkDuplicates, h1, h2, if_false] at h
        obtain ⟨d, hd, hrest⟩ := ih h
        exact ⟨d, by simp [List.find?, collides, h1, h2]; simpa [collides] using hd, hrest⟩

theorem addConnections_guard (toLowerCase : String → String) (now : String)
    (connections : ConnMap) (socket : Socket) (user : User) :
    (if mapSize connections > 0 then
        checkDuplicates toLowerCase now socket user (mapValues connections)
      else none) = checkDuplicates toLowerCase now socket user (mapValues connections) := by
  cases connections with
  | nil => simp [mapSize, mapValues, checkDuplicates]
  | cons hd tl => simp [mapSize]

theorem addConnections_of_no_collision (toLowerCase : String → String) (now : String)
    (connections : ConnMap) (socket : Socket) (user : User)
    (h : ∀ c ∈ mapValues connections, ¬ collides toLowerCase user c) :
    addConnections toLowerCase now connections socket user =
      (mapSet connections socket user,
        [Event.send socket (joinedMsg (mapSize (mapSet connections socket user)))]) := by
  unfold addConnections
  rw [addConnections_guard, (checkDuplicates_eq_none_iff _ _ _ _ _).2 h]

theorem addConnections_of_collision (toLowerCase : String → String) (now : String)
    (connections : ConnMap) (socket : Socket) (user : User)
    (h : ∃ c ∈ mapValues connections, collides toLowerCase user c) :
    ∃ c e, (mapValues connections).find? (fun c => decide (collides toLowerCase user c)) = some c ∧
      addConnections toLowerCase now connections socket user =
        (connections, [Event.send socket e, Event.close socket]) ∧
      (toLowerCase c.color = toLowerCase user.color → e = colorError now) ∧
      (toLowerCase c.color ≠ toLowerCase user.color → e = usernameError now) := by
  have hne : checkDuplicates toLowerCase now socket user (mapValues connections) ≠ none := by
    rw [Ne, checkDuplicates_eq_none_iff]
    obtain ⟨c, hc, hcol⟩ := h
    exact fun hall => hall c hc hcol
  obtain ⟨evs, hevs⟩ := Option.ne_none_iff_exists'.1 hne
  obtain ⟨c, hfind, hcol, hname⟩ := checkDuplicates_some _ _ _ _ _ _ hevs
  by_cases h1 : toLowerCase c.color = toLowerCase user.color
  · refine ⟨c, colorError now, hfind, ?_, fun _ => rfl, fun hn => absurd h1 hn⟩
    unfold addConnections
    rw [addConnections_guard, hevs, hcol h1]
  · refine ⟨c, usernameError now, hfind, ?_, fun hh => absurd hh h1, fun _ => rfl⟩
    unfold addConnections
    rw [addConnections_guard, hevs, hname h1]

/-! ## Uniqueness invariant -/

theorem compatible_symm (toLowerCase : String → String) :
    Symmetric (compatible toLowerCase) := by
  intro a b h
  exact ⟨fun hh => h.1 hh.symm, fun hh => h.2.1 hh.symm, fun hh => h.2.2 hh.symm⟩

theorem pairwise_mapSet (toLowerCase : String → String) (m : ConnMap) (s : Socket) (u : User)
    (hm : m.Pairwise (compatible toLowerCase))
    (hu : ∀ c ∈ mapValues m, ¬ collides toLowerCase u c) :
    (mapSet m s u).Pairwise (compatible toLowerCase) := by
  induction m with
  | nil => simp [mapSet]
  | cons hd tl ih =>
    obtain ⟨k, v⟩ := hd
    rw [List.pairwise_cons] at hm
    have hv : ¬ collides toLowerCase u v := hu v (by simp [mapValues])
    have htl : ∀ c ∈ mapValues tl, ¬ collides toLowerCase u c := fun c hc =>
      hu c (by simp only [mapValues, List.map_cons]; exact List.mem_cons_of_mem _ hc)
    by_cases hk : k = s
    · simp only [mapSet, hk, if_true]
      rw [List.pairwise_cons]
      refine ⟨fun e he => ?_, hm.2⟩
      have h1 := hm.1 e he
      have h2 : ¬ collides toLowerCase u e.2 := htl e.2 (List.mem_map_of_mem _ he)
      refine ⟨by simpa [hk] using h1.1, fun hh => h2 (Or.inr hh.symm), fun hh => h2 (Or.inl hh.symm)⟩
    · simp only [mapSet, hk, if_false]
      rw [List.pairwise_cons]
      refine ⟨fun e he => ?_, ih hm.2 htl⟩
      rcases mem_mapSet he with h1 | h1
      · exact hm.1 e h1
      · subst h1
        exact ⟨hk, fun hh => hv (Or.inr hh), fun hh => hv (Or.inl hh)⟩

theorem pairwise_applyCall (toLowerCase : String → String) (now : String) (m : ConnMap)
    (call : Call) (hm : m.Pairwise (compatible toLowerCase)) :
    (applyCall toLowerCase now m call).Pairwise (compatible toLowerCase) := by
  cases call with
  | add socket user =>
    by_cases h : ∀ c ∈ mapValues m, ¬ collides toLowerCase user c
    · simp only [applyCall, addConnections_of_no_collision _ _ _ _ _ h]
      exact pairwise_mapSet _ _ _ _ hm h
    · have h2 : ∃ c ∈ mapValues m, collides toLowerCase user c := by
        by_contra hcon
        exact h (fun c hc hcol => hcon ⟨c, hc, hcol⟩)
      obtain ⟨c, e, _, heq, _⟩ := addConnections_of_collision toLowerCase now m socket user h2
      simp only [applyCall, heq]
      exact hm
  | remove socket =>
    simp only [applyCall, removeConnection, mapDelete]
    exact hm.filter _

theorem pairwise_applyCalls (toLowerCase : String → String) (now : String) (calls : List Call) :
    ∀ m : ConnMap, m.Pairwise (compatible toLowerCase) →
      (applyCalls toLowerCase now m calls).Pairwise (compatible toLowerCase) := by
  induction calls with
  | nil => intro m hm; exact hm
  | cons call rest ih =>
    intro m hm
    simp only [applyCalls, List.foldl_cons]
    exact ih _ (pairwise_applyCall _ _ _ _ hm)

/-- C1. Starting from the empty manager, after every finite sequence of `addConnections` and
`removeConnection` calls, any two entries of `connections` under distinct sockets have usernames
that differ after `toLowerCase` and colours that differ after `toLowerCase` (and no socket is
stored twice). -/
theorem uniqueness_invariant (toLowerCase : String → String) (now : String)
    (calls : List Call) :
    MapWF (applyCalls toLowerCase now [] calls) ∧
    ∀ s1 u1 s2 u2, (s1, u1) ∈ applyCalls toLowerCase now [] calls →
      (s2, u2) ∈ applyCalls toLowerCase now [] calls → s1 ≠ s2 →
      toLowerCase u1.username ≠ toLowerCase u2.username ∧
        toLowerCase u1.color ≠ toLowerCase u2.color := by
  have hp := pairwise_applyCalls toLowerCase now calls [] List.Pairwise.nil
  constructor
  · unfold MapWF mapKeys
    rw [List.Nodup, List.pairwise_map]
    exact hp.imp (fun h => h.1)
  · intro s1 u1 s2 u2 h1 h2 hne
    have := hp.forall (compatible_symm toLowerCase) h1 h2 (fun hh => hne (congrArg Prod.fst hh))
    exact this.2

/-! ## Admission -/

/-- C2. `addConnections` accepts exactly when no stored identity collides with the candidate.
Without collision the socket is stored with the candidate identity and receives the join
acknowledgment only. With a collision `connections` is returned as it was, the socket is sent
exactly one message, of type `error` and without `num_connections`, and is then closed. For a
socket not stored before, it is stored afterwards if and only if there is no collision. -/
theorem addConnections_admission (toLowerCase : String → String) (now : String)
    (connections : ConnMap) (socket : Socket) (user : User) :
    ((∀ c ∈ mapValues connections, ¬ collides toLowerCase user c) →
      (addConnections toLowerCase now connections socket user).1
          = mapSet connections socket user ∧
        mapGet (addConnections toLowerCase now connections socket user).1 socket = some user ∧
        closed socket (addConnections toLowerCase now connections socket user).2 = false ∧
        ∃ n, (addConnections toLowerCase now connections socket user).2
          = [Event.send socket (joinedMsg n)]) ∧
    ((∃ c ∈ mapValues connections, collides toLowerCase user c) →
      (addConnections toLowerCase now connections socket user).1 = connections ∧
        ∃ e, (addConnections toLowerCase now connections socket user).2
            = [Event.send socket e, Event.close socket] ∧
          sentTo socket (addConnections toLowerCase now connections socket user).2 = [e] ∧
          e.field? "type" = some (Json.str "error") ∧
          e.field? "num_connections" = none) ∧
    (mapHas connections socket = false →
      (mapHas (addConnections toLowerCase now connections socket user).1 socket = true ↔
        ∀ c ∈ mapValues connections, ¬ collides toLowerCase user c)) := by
  by_cases h : ∀ c ∈ mapValues connections, ¬ collides toLowerCase user c
  · have hno : ¬ ∃ c ∈ mapValues connections, collides toLowerCase user c :=
      fun ⟨c, hc, hcol⟩ => h c hc hcol
    rw [addConnections_of_no_collision _ _ _ _ _ h]
    refine ⟨fun _ => ⟨rfl, mapGet_mapSet_self _ _ _, by simp [closed], _, rfl⟩,
      fun hh => absurd hh hno, fun _ => ⟨fun _ => h, fun _ => ?_⟩⟩
    rw [mapHas_eq_true_iff]
    exact mem_mapKeys_mapSet_self _ _ _
  · have hyes : ∃ c ∈ mapValues connections, collides toLowerCase user c := by
      by_contra hcon
      exact h (fun c hc hcol => hcon ⟨c, hc, hcol⟩)
    obtain ⟨c, e, _, heq, hcol, hname⟩ :=
      addConnections_of_collision toLowerCase now connections socket user hyes
    have hshape : e.field? "type" = some (Json.str "error") ∧
        e.field? "num_connections" = none := by
      by_cases h1 : toLowerCase c.color = toLowerCase user.color
      · rw [hcol h1]; exact ⟨rfl, rfl⟩
      · rw [hname h1]; exact ⟨rfl, rfl⟩
    rw [heq]
    refine ⟨fun hh => absurd hh h, fun _ => ⟨rfl, e, rfl, by simp [sentTo], hshape.1, hshape.2⟩,
      fun hnot => ⟨fun hhas => ?_, fun hh => absurd hh h⟩⟩
    simp only [hnot] at hhas
    exact absurd hhas (by decide)

/-- Witness for C2: with `ann`/`red` stored, the candidate `Ann`/`blue` on socket `2` collides,
the registry is returned as it was, and the effects are one error message and the close. -/
theorem addConnections_admission_witness :
    (∃ c ∈ mapValues [(1, ⟨"ann", "red"⟩)], collides asciiLower ⟨"Ann", "blue"⟩ c) ∧
    (addConnections asciiLower "2024-01-01T00:00:00.000Z" [(1, ⟨"ann", "red"⟩)] 2
        ⟨"Ann", "blue"⟩).1 = [(1, ⟨"ann", "red"⟩)] ∧
    ∃ e, (addConnections asciiLower "2024-01-01T00:00:00.000Z" [(1, ⟨"ann", "red"⟩)] 2
          ⟨"Ann", "blue"⟩).2 = [Event.send 2 e, Event.close 2] ∧
      sentTo 2 (addConnections asciiLower "2024-01-01T00:00:00.000Z" [(1, ⟨"ann", "red"⟩)] 2
          ⟨"Ann", "blue"⟩).2 = [e] ∧
      e.field? "type" = some (Json.str "error") ∧
      e.field? "num_connections" = none :=
  ⟨by decide,
    (addConnections_admission asciiLower "2024-01-01T00:00:00.000Z" [(1, ⟨"ann", "red"⟩)] 2
      ⟨"Ann", "blue"⟩).2.1 (by decide)⟩

/-- C3. When the socket is not stored and the candidate collides with no stored identity,
`addConnections` sends the socket exactly one message, `{num_connections: n, status: 1}`, where
`n` is the size of `connections` right after the insertion, which is the previous size plus
one. -/
theorem addConnections_count (toLowerCase : String → String) (now : String)
    (connections : ConnMap) (socket : Socket) (user : User)
    (hnew : mapHas connections socket = false)
    (hfree : ∀ c ∈ mapValues connections, ¬ collides toLowerCase user c) :
    (addConnections toLowerCase now connections socket user).2
        = [Event.send socket
            (joinedMsg (mapSize (addConnections toLowerCase now connections socket user).1))] ∧
      sentTo socket (addConnections toLowerCase now connections socket user).2
        = [Json.obj [("num_connections", Json.num (Int.ofNat (mapSize connections + 1))),
                     ("status", Json.num 1)]] ∧
      mapSize (addConnections toLowerCase now connections socket user).1
        = mapSize connections + 1 := by
  rw [addConnections_of_no_collision _ _ _ _ _ hfree]
  have hsize : mapSize (mapSet connections socket user) = mapSize connections + 1 := by
    rw [mapKeys_mapSet_of_not_mem user ((mapHas_eq_false_iff _ _).1 hnew)]
    simp [mapSize]
  refine ⟨rfl, ?_, hsize⟩
  simp only [sentTo, if_true, hsize]
  rfl

/-- Witness for C3: the second admission, of `bob`/`blue` next to `ann`/`red`, reports
`num_connections: 2`. -/
theorem addConnections_count_witness :
    mapHas [(1, ⟨"ann", "red"⟩)] 2 = false ∧
    (∀ c ∈ mapValues [(1, ⟨"ann", "red"⟩)], ¬ collides asciiLower ⟨"Bob", "blue"⟩ c) ∧
    sentTo 2 (addConnections asciiLower "2024-01-01T00:00:00.000Z" [(1, ⟨"ann", "red"⟩)] 2
        ⟨"Bob", "blue"⟩).2
      = [Json.obj [("num_connections", Json.num 2), ("status", Json.num 1)]] :=
  ⟨by decide, by decide,
    (addConnections_count asciiLower "2024-01-01T00:00:00.000Z" [(1, ⟨"ann", "red"⟩)] 2
      ⟨"Bob", "blue"⟩ (by decide) (by decide)).2.1⟩

/-! ## Broadcast -/

theorem broadcast_eq_map_filter (readyState : Socket → Nat) (connections : ConnMap)
    (message : Json) (eSocket : Socket) :
    broadcast readyState connections message eSocket =
      ((mapKeys connections).filter
        (fun s => decide (s ≠ eSocket ∧ readyState s = WebSocket_OPEN))).map
        (fun s => Event.send s message) := by
  induction connections with
  | nil => rfl
  | cons hd tl ih =>
    obtain ⟨k, v⟩ := hd
    by_cases h : k ≠ eSocket ∧ readyState k = WebSocket_OPEN
    · simp only [broadcast, h, and_self, if_true, mapKeys, List.map_cons, List.filter_cons,
        decide_True, ne_eq, not_false_eq_true]
      rw [ih]; rfl
    · simp only [broadcast, h, if_false, mapKeys, List.map_cons, List.filter_cons,
        decide_False]
      rw [ih]; rfl

theorem sentTo_map_send (s : Socket) (message : Json) (l : List Socket) :
    sentTo s (l.map (fun t => Event.send t message)) = List.replicate (l.count s) message := by
  induction l with
  | nil => rfl
  | cons t rest ih =>
    by_cases h : t = s
    · subst h
      simp [sentTo, ih, List.replicate_succ]
    · have h2 : ¬ (t == s) = true := by simpa using h
      simp [sentTo, ih, h, List.count_cons, h2]

theorem closed_map_send (s : Socket) (message : Json) (l : List Socket) :
    closed s (l.map (fun t => Event.send t message)) = false := by
  induction l with
  | nil => rfl
  | cons t rest ih => simpa [closed] using ih

theorem onMessage_connections (env : Env) (connections : ConnMap) (socket : Socket)
    (url payload : String) : (onMessage env connections socket url payload).1 = connections := by
  cases hparse : env.jsonParse (env.bufferToString payload) with
  | none => simp [onMessage, hparse]
  | some parsed =>
    cases hv : wsValidateHook env socket parsed url with
    | mk b evs => cases b <;> simp [onMessage, hparse, hv]

/-- C4. For well-formed `connections`, `broadcast(message, e)` sends `message` exactly once to
each stored socket `s` with `s !== e` and `readyState === OPEN`, in `forEach` order, and nothing
to any other socket: nothing to `e`, nothing to a stored socket that is not OPEN (which does not
stop the sends to the others), nothing to a socket not stored; it closes no socket. The method
only reads `connections`: the `message` listener, its one caller, leaves `connections` as it
was. -/
theorem broadcast_fanout (readyState : Socket → Nat) (connections : ConnMap) (message : Json)
    (e : Socket) (hwf : MapWF connections) :
    broadcast readyState connections message e =
        ((mapKeys connections).filter
          (fun s => decide (s ≠ e ∧ readyState s = WebSocket_OPEN))).map
          (fun s => Event.send s message) ∧
      (∀ s, sentTo s (broadcast readyState connections message e) =
        if mapHas connections s = true ∧ s ≠ e ∧ readyState s = WebSocket_OPEN
        then [message] else []) ∧
      sentTo e (broadcast readyState connections message e) = [] ∧
      (∀ s, closed s (broadcast readyState connections message e) = false) ∧
      (∀ (env : Env) (σ : Srv) (s : Socket) (payload : String),
        (Srv.step env σ (Input.message s payload)).1.connections = σ.connections) := by
  have hcount : ∀ s, sentTo s (broadcast readyState connections message e) =
      if mapHas connections s = true ∧ s ≠ e ∧ readyState s = WebSocket_OPEN
      then [message] else [] := by
    intro s
    rw [broadcast_eq_map_filter, sentTo_map_send]
    by_cases hp : s ≠ e ∧ readyState s = WebSocket_OPEN
    · rw [List.count_filter (by simpa using hp)]
      by_cases hmem : s ∈ mapKeys connections
      · have h1 : (mapKeys connections).count s = 1 := List.count_eq_one_of_mem hwf hmem
        simp [hp, h1, (mapHas_eq_true_iff _ _).2 hmem]
      · have h0 : (mapKeys connections).count s = 0 := List.count_eq_zero_of_not_mem hmem
        have hf : mapHas connections s = false := (mapHas_eq_false_iff _ _).2 hmem
        simp [hp, h0, hf]
    · have h0 : ((mapKeys connections).filter
          (fun s => decide (s ≠ e ∧ readyState s = WebSocket_OPEN))).count s = 0 := by
        apply List.count_eq_zero_of_not_mem
        intro hmem
        rw [List.mem_filter] at hmem
        exact hp (by simpa using hmem.2)
      rw [h0]
      have hif : ¬ (mapHas connections s = true ∧ s ≠ e ∧ readyState s = WebSocket_OPEN) :=
        fun hh => hp hh.2
      simp only [hif, if_false, List.replicate_zero]
  refine ⟨broadcast_eq_map_filter _ _ _ _, hcount, ?_, ?_, ?_⟩
  · rw [hcount e]; simp
  · intro s
    rw [broadcast_eq_map_filter]
    exact closed_map_send _ _ _
  · intro env σ s payload
    cases hl : σ.listeners.lookup s with
    | none => simp [Srv.step, hl]
    | some url => simp [Srv.step, hl, onMessage_connections]

/-- Witness for C4: three stored sockets, sender `1`, socket `2` CLOSED, socket `3` OPEN: the
message goes to `3` only. -/
theorem broadcast_fanout_witness :
    MapWF [(1, ⟨"ann", "red"⟩), (2, ⟨"bob", "blue"⟩), (3, ⟨"cy", "green"⟩)] ∧
    broadcast (fun s => if s = 2 then WebSocket_CLOSED else WebSocket_OPEN)
        [(1, ⟨"ann", "red"⟩), (2, ⟨"bob", "blue"⟩), (3, ⟨"cy", "green"⟩)]
        (Json.obj [("type", Json.str "chat")]) 1
      = [Event.send 3 (Json.obj [("type", Json.str "chat")])] ∧
    sentTo 1 (broadcast (fun s => if s = 2 then WebSocket_CLOSED else WebSocket_OPEN)
        [(1, ⟨"ann", "red"⟩), (2, ⟨"bob", "blue"⟩), (3, ⟨"cy", "green"⟩)]
        (Json.obj [("type", Json.str "chat")]) 1) = [] :=
  ⟨by decide,
    (broadcast_fanout (fun s => if s = 2 then WebSocket_CLOSED else WebSocket_OPEN)
      [(1, ⟨"ann", "red"⟩), (2, ⟨"bob", "blue"⟩), (3, ⟨"cy", "green"⟩)]
      (Json.obj [("type", Json.str "chat")]) 1 (by decide)).1,
    (broadcast_fanout (fun s => if s = 2 then WebSocket_CLOSED else WebSocket_OPEN)
      [(1, ⟨"ann", "red"⟩), (2, ⟨"bob", "blue"⟩), (3, ⟨"cy", "green"⟩)]
      (Json.obj [("type", Json.str "chat")]) 1 (by decide)).2.2.1⟩

theorem sentTo_broadcast_of_not_mem (readyState : Socket → Nat) (connections : ConnMap)
    (message : Json) (e s : Socket) (h : s ∉ mapKeys connections) :
    sentTo s (broadcast readyState connections message e) = [] := by
  rw [broadcast_eq_map_filter, sentTo_map_send]
  have h0 : ((mapKeys connections).filter
      (fun s => decide (s ≠ e ∧ readyState s = WebSocket_OPEN))).count s = 0 :=
    List.count_eq_zero_of_not_mem (fun hmem => h (List.mem_filter.1 hmem).1)
  rw [h0]; rfl

theorem sentTo_broadcast_self (readyState : Socket → Nat) (connections : ConnMap)
    (message : Json) (e : Socket) :
    sentTo e (broadcast readyState connections message e) = [] := by
  rw [broadcast_eq_map_filter, sentTo_map_send]
  have h0 : ((mapKeys connections).filter
      (fun s => decide (s ≠ e ∧ readyState s = WebSocket_OPEN))).count e = 0 := by
    apply List.count_eq_zero_of_not_mem
    intro hmem
    have := (List.mem_filter.1 hmem).2
    simp at this
  rw [h0]; rfl

/-! ## Validation gating -/

theorem takeWhile_append_stop {α : Type} (p : α → Bool) (l : List α) (a : α) (r : List α)
    (hl : ∀ x ∈ l, p x = true) (ha : p a = false) : (l ++ a :: r).takeWhile p = l := by
  induction l with
  | nil => simp [List.takeWhile, ha]
  | cons x rest ih =>
    have hx : p x = true := hl x (List.mem_cons_self _ _)
    have h2 := ih (fun y hy => hl y (List.mem_cons_of_mem _ hy))
    rw [List.cons_append, List.takeWhile_cons, hx, if_pos rfl, h2]

theorem takeWhile_all {α : Type} (p : α → Bool) (l : List α) (hl : ∀ x ∈ l, p x = true) :
    l.takeWhile p = l := by
  induction l with
  | nil => rfl
  | cons x rest ih =>
    have hx : p x = true := hl x (List.mem_cons_self _ _)
    have h2 := ih (fun y hy => hl y (List.mem_cons_of_mem _ hy))
    rw [List.takeWhile_cons, hx, if_pos rfl, h2]

theorem beforeQuery_eq_of_isPathOf {url path : String} (h : IsPathOf url path) :
    beforeQuery url = path := by
  obtain ⟨hq, hurl⟩ := h
  have hall : ∀ x ∈ path.data, (fun c : Char => c != '?') x = true := by
    intro x hx
    have : x ≠ '?' := fun hh => hq (hh ▸ hx)
    simpa using this
  apply String.ext
  unfold beforeQuery
  rcases hurl with hurl | ⟨query, hurl⟩
  · subst hurl
    exact takeWhile_all _ _ hall
  · subst hurl
    have hd : (path ++ "?" ++ query).data = path.data ++ '?' :: query.data := by
      simp [String.data_append]
    show List.takeWhile _ (path ++ "?" ++ query).data = path.data
    rw [hd]
    exact takeWhile_append_stop _ _ _ _ hall (by decide)

theorem takeWhile_split (l : List Char) :
    l = l.takeWhile (fun c => c != '?') ∨
      ∃ r, l = l.takeWhile (fun c => c != '?') ++ '?' :: r := by
  induction l with
  | nil => exact Or.inl rfl
  | cons x rest ih =>
    by_cases hx : x = '?'
    · subst hx
      exact Or.inr ⟨rest, by simp [List.takeWhile]⟩
    · have hp : (x != '?') = true := by simpa using hx
      rw [List.takeWhile_cons, hp, if_pos rfl]
      rcases ih with h | ⟨r, h⟩
      · exact Or.inl (congrArg (List.cons x) h)
      · exact Or.inr ⟨r, congrArg (List.cons x) h⟩

theorem isPathOf_beforeQuery (url : String) : IsPathOf url (beforeQuery url) := by
  refine ⟨?_, ?_⟩
  · intro hmem
    have := List.mem_takeWhile_imp hmem
    simp at this
  · rcases takeWhile_split url.data with h | ⟨r, h⟩
    · exact Or.inl (String.ext h)
    · refine Or.inr ⟨String.mk r, String.ext ?_⟩
      simp only [String.data_append, beforeQuery]
      rw [List.append_assoc]
      exact h

theorem getChannelByAddress_eq_of_resolvesTo {channels : List (String × String)}
    {path : String} {channel : Option String} (h : ResolvesTo channels path channel) :
    getChannelByAddress channels path = channel := by
  cases channel with
  | none =>
    induction channels with
    | nil => rfl
    | cons hd tl ih =>
      obtain ⟨address, id⟩ := hd
      have hne : ¬ address = path := h (address, id) (List.mem_cons_self _ _)
      simp only [getChannelByAddress, hne, if_false]
      exact ih (fun c hc => h c (List.mem_cons_of_mem _ hc))
  | some id =>
    obtain ⟨pre, post, heq, hpre⟩ := h
    subst heq
    induction pre with
    | nil => simp [getChannelByAddress]
    | cons hd tl ih =>
      obtain ⟨address, id2⟩ := hd
      have hne : ¬ address = path := hpre (address, id2) (List.mem_cons_self _ _)
      simp only [List.cons_append, getChannelByAddress, hne, if_false]
      exact ih (fun c hc => hpre c (List.mem_cons_of_mem _ hc))

theorem resolvesTo_getChannelByAddress (channels : List (String × String)) (path : String) :
    ResolvesTo channels path (getChannelByAddress channels path) := by
  induction channels with
  | nil => intro c hc; cases hc
  | cons hd tl ih =>
    obtain ⟨address, id⟩ := hd
    by_cases hne : address = path
    · subst hne
      simp only [getChannelByAddress, if_true]
      exact ⟨[], tl, rfl, fun c hc => by cases hc⟩
    · simp only [getChannelByAddress, hne, if_false]
      cases hres : getChannelByAddress tl path with
      | none =>
        rw [hres] at ih
        intro c hc
        rcases List.mem_cons.1 hc with h1 | h1
        · subst h1; exact hne
        · exact ih c h1
      | some id2 =>
        rw [hres] at ih
        obtain ⟨pre, post, heq, hpre⟩ := ih
        refine ⟨(address, id) :: pre, post, by rw [heq]; rfl, fun c hc => ?_⟩
        rcases List.mem_cons.1 hc with h1 | h1
        · subst h1; exact hne
        · exact hpre c h1

/-- C5. Let `path` be the request URL with its query string dropped and `channel` the channel
resolved from `path` (the first declared channel with that address, or none). The `message`
listener never changes `connections` and never closes or removes the sending socket. When the
payload decodes as JSON and the validator accepts the decoded message for `send` on `channel`,
the effects are exactly those of `broadcast(parsed, socket)`. When decoding fails, or the
validator rejects the decoded message on `channel`, there is no broadcast: the only effect is
one message of type `error` sent to the sending socket (carrying the validator's message as
`text` in the second case), and no other socket is sent anything. -/
theorem onMessage_gating (env : Env) (connections : ConnMap) (socket : Socket)
    (url payload path : String) (channel : Option String)
    (hpath : IsPathOf url path) (hchannel : ResolvesTo env.channels path channel) :
    (onMessage env connections socket url payload).1 = connections ∧
    closed socket (onMessage env connections socket url payload).2 = false ∧
    (∀ m, env.jsonParse (env.bufferToString payload) = some m → accepts env channel m →
      (onMessage env connections socket url payload).2
        = broadcast env.readyState connections m socket ∧
      sentTo socket (onMessage env connections socket url payload).2 = []) ∧
    ((env.jsonParse (env.bufferToString payload) = none ∨
        ∃ m, env.jsonParse (env.bufferToString payload) = some m ∧ ¬ accepts env channel m) →
      ∃ e, (onMessage env connections socket url payload).2 = [Event.send socket e] ∧
        e.field? "type" = some (Json.str "error") ∧
        sentTo socket (onMessage env connections socket url payload).2 = [e] ∧
        ∀ s, s ≠ socket → sentTo s (onMessage env connections socket url payload).2 = []) ∧
    (∀ m text, env.jsonParse (env.bufferToString payload) = some m →
      env.vaValidate "chat" m channel "send" = Except.error text →
      (onMessage env connections socket url payload).2
        = [Event.send socket (validationError text env.now)]) := by
  have hres : getChannelByAddress env.channels (beforeQuery url) = channel := by
    rw [beforeQuery_eq_of_isPathOf hpath]
    exact getChannelByAddress_eq_of_resolvesTo hchannel
  cases hparse : env.jsonParse (env.bufferToString payload) with
  | none =>
    refine ⟨by simp [onMessage, hparse], by simp [onMessage, hparse, closed],
      fun m hm => by simp at hm, fun _ => ⟨internalError env.now, ?_, rfl, ?_, ?_⟩,
      fun m text hm => by simp at hm⟩
    · simp [onMessage, hparse]
    · simp [onMessage, hparse, sentTo]
    · intro s hs
      have hs2 : ¬ socket = s := fun hh => hs hh.symm
      simp [onMessage, hparse, sentTo, hs2]
  | some parsed =>
    cases hval : env.vaValidate "chat" parsed channel "send" with
    | ok u =>
      have hev : (onMessage env connections socket url payload).2
          = broadcast env.readyState connections parsed socket := by
        simp [onMessage, hparse, wsValidateHook, hres, hval]
      refine ⟨by simp [onMessage, hparse, wsValidateHook, hres, hval], ?_, ?_, ?_, ?_⟩
      · rw [hev, broadcast_eq_map_filter]; exact closed_map_send _ _ _
      · intro m hm _
        have hmp : parsed = m := by simpa using hm
        subst hmp
        exact ⟨hev, by rw [hev]; exact sentTo_broadcast_self _ _ _ _⟩
      · intro hfail
        rcases hfail with h | ⟨m, hm, hrej⟩
        · simp at h
        · have hmp : parsed = m := by simpa using hm
          subst hmp
          exact absurd hval hrej
      · intro m text hm herr
        have hmp : parsed = m := by simpa using hm
        subst hmp
        rw [hval] at herr
        cases herr
    | error text =>
      have hev : (onMessage env connections socket url payload).2
          = [Event.send socket (validationError text env.now)] := by
        simp [onMessage, hparse, wsValidateHook, hres, hval]
      refine ⟨by simp [onMessage, hparse, wsValidateHook, hres, hval], by simp [hev, closed],
        ?_, fun _ => ⟨validationError text env.now, hev, rfl, by simp [hev, sentTo], ?_⟩, ?_⟩
      · intro m hm hacc
        have hmp : parsed = m := by simpa using hm
        subst hmp
        unfold accepts at hacc
        rw [hval] at hacc
        cases hacc
      · intro s hs
        have hs2 : ¬ socket = s := fun hh => hs hh.symm
        simp [hev, sentTo, hs2]
      · intro m text2 hm herr
        have hmp : parsed = m := by simpa using hm
        subst hmp
        rw [hval] at herr
        have htt : text = text2 := by injection herr
        subst htt
        exact hev

/-- Witness for C5, with channels `other` at `/other` and `root` at `/`, and sockets `1` and
`3` stored. On `/?username=ann&color=red` the path is `/` and the channel `root`: a valid chat
frame from `1` goes to `3` only, and a drawing frame without `positionY` is rejected by the
validator and answered with its message. On `/other?x=1` the path is `/other` and the channel
`other`, on which the same chat frame is rejected. -/
theorem onMessage_gating_witness :
    (IsPathOf "/?username=ann&color=red" "/" ∧
      ResolvesTo gateEnv.channels "/" (some "root") ∧
      accepts gateEnv (some "root") chatMsg ∧
      (onMessage gateEnv [(1, ⟨"ann", "red"⟩), (3, ⟨"bob", "blue"⟩)] 1
          "/?username=ann&color=red" chatText).2 = [Event.send 3 chatMsg]) ∧
    (¬ accepts gateEnv (some "root") drawingMsg ∧
      (onMessage gateEnv [(1, ⟨"ann", "red"⟩), (3, ⟨"bob", "blue"⟩)] 1
          "/?username=ann&color=red" drawingText).2
        = [Event.send 1 (validationError "invalid message" gateEnv.now)]) ∧
    (IsPathOf "/other?x=1" "/other" ∧
      ResolvesTo gateEnv.channels "/other" (some "other") ∧
      ¬ accepts gateEnv (some "other") chatMsg ∧
      (onMessage gateEnv [(1, ⟨"ann", "red"⟩), (3, ⟨"bob", "blue"⟩)] 1
          "/other?x=1" chatText).2
        = [Event.send 1 (validationError "unknown channel" gateEnv.now)]) := by
  have hp1 : IsPathOf "/?username=ann&color=red" "/" :=
    ⟨by decide, Or.inr ⟨"username=ann&color=red", by decide⟩⟩
  have hc1 : ResolvesTo gateEnv.channels "/" (some "root") :=
    ⟨[("/other", "other")], [], rfl, by decide⟩
  have hp2 : IsPathOf "/other?x=1" "/other" := ⟨by decide, Or.inr ⟨"x=1", by decide⟩⟩
  have hc2 : ResolvesTo gateEnv.channels "/other" (some "other") :=
    ⟨[], [("/", "root")], rfl, by decide⟩
  have ha1 : accepts gateEnv (some "root") chatMsg := rfl
  have hr1 : ¬ accepts gateEnv (some "root") drawingMsg := by
    intro h; unfold accepts at h; cases h
  have hr2 : ¬ accepts gateEnv (some "other") chatMsg := by
    intro h; unfold accepts at h; cases h
  exact ⟨⟨hp1, hc1, ha1,
      ((onMessage_gating gateEnv [(1, ⟨"ann", "red"⟩), (3, ⟨"bob", "blue"⟩)] 1
        "/?username=ann&color=red" chatText "/" (some "root") hp1 hc1).2.2.1
        chatMsg rfl ha1).1⟩,
    ⟨hr1,
      (onMessage_gating gateEnv [(1, ⟨"ann", "red"⟩), (3, ⟨"bob", "blue"⟩)] 1
        "/?username=ann&color=red" drawingText "/" (some "root") hp1 hc1).2.2.2.2
        drawingMsg "invalid message" rfl rfl⟩,
    ⟨hp2, hc2, hr2,
      (onMessage_gating gateEnv [(1, ⟨"ann", "red"⟩), (3, ⟨"bob", "blue"⟩)] 1
        "/other?x=1" chatText "/other" (some "other") hp2 hc2).2.2.2.2
        chatMsg "unknown channel" rfl rfl⟩⟩

/-! ## Eviction and teardown -/

theorem mapGet_mapDelete_of_ne (m : ConnMap) {s t : Socket} (h : t ≠ s) :
    mapGet (mapDelete m s) t = mapGet m t := by
  induction m with
  | nil => rfl
  | cons hd tl ih =>
    obtain ⟨k, v⟩ := hd
    unfold mapGet mapDelete at *
    by_cases hk : k = s
    · subst hk
      have htk : (t == k) = false := by simpa using h
      have hkk : (k != k) = false := by simp
      simp only [List.filter_cons, hkk, List.lookup, htk]
      exact ih
    · have hks : (k != s) = true := by simpa using hk
      by_cases htk : t = k
      · simp [List.filter_cons, hks, List.lookup, htk]
      · have htk2 : (t == k) = false := by simpa using htk
        simp only [List.filter_cons, hks, if_true, List.lookup, htk2]
        exact ih

theorem mapSize_mapDelete_of_mem {m : ConnMap} (hwf : MapWF m) {s : Socket}
    (h : s ∈ mapKeys m) : mapSize (mapDelete m s) + 1 = mapSize m := by
  induction m with
  | nil => simp [mapKeys] at h
  | cons hd tl ih =>
    obtain ⟨k, v⟩ := hd
    have hnd : k ∉ mapKeys tl ∧ MapWF tl := by
      unfold MapWF mapKeys at hwf
      simpa [List.nodup_cons, MapWF, mapKeys] using hwf
    by_cases hk : k = s
    · subst hk
      have : mapDelete ((k, v) :: tl) k = tl := by
        have h1 := mapDelete_of_not_mem hnd.1
        unfold mapDelete at h1 ⊢
        simp [List.filter_cons, h1]
      rw [this]; simp [mapSize]
    · have hmem : s ∈ mapKeys tl := by
        simp only [mapKeys, List.map_cons, List.mem_cons] at h
        rcases h with h | h
        · exact absurd h.symm hk
        · exact h
      have := ih hnd.2 hmem
      have hks : (k != s) = true := by simpa using hk
      unfold mapDelete mapSize at this ⊢
      simp only [List.filter_cons, hks, if_true, List.length_cons]
      omega

theorem not_mem_mapKeys_applyCall (toLowerCase : String → String) (now : String) (m : ConnMap)
    (s : Socket) (call : Call) (hs : s ∉ mapKeys m) (hc : Call.notAdd s call) :
    s ∉ mapKeys (applyCall toLowerCase now m call) := by
  cases call with
  | add socket user =>
    have hne : socket ≠ s := hc
    by_cases h : ∀ c ∈ mapValues m, ¬ collides toLowerCase user c
    · simp only [applyCall, addConnections_of_no_collision _ _ _ _ _ h]
      intro hmem
      obtain ⟨e, he, hes⟩ := List.mem_map.1 hmem
      rcases mem_mapSet he with h1 | h1
      · exact hs (hes ▸ List.mem_map_of_mem _ h1)
      · subst h1; exact hne hes
    · have h2 : ∃ c ∈ mapValues m, collides toLowerCase user c := by
        by_contra hcon
        exact h (fun c hc hcol => hcon ⟨c, hc, hcol⟩)
      obtain ⟨c, e, _, heq, _⟩ := addConnections_of_collision toLowerCase now m socket user h2
      simp only [applyCall, heq]
      exact hs
  | remove socket =>
    simp only [applyCall, removeConnection]
    rw [mapKeys_mapDelete]
    exact fun hmem => hs (List.mem_filter.1 hmem).1

theorem not_mem_mapKeys_applyCalls (toLowerCase : String → String) (now : String) (s : Socket)
    (calls : List Call) :
    ∀ m : ConnMap, s ∉ mapKeys m → (∀ c ∈ calls, Call.notAdd s c) →
      s ∉ mapKeys (applyCalls toLowerCase now m calls) := by
  induction calls with
  | nil => intro m hm _; exact hm
  | cons call rest ih =>
    intro m hm hc
    simp only [applyCalls, List.foldl_cons]
    exact ih _ (not_mem_mapKeys_applyCall _ _ _ _ _ hm (hc call (List.mem_cons_self _ _)))
      (fun c hcm => hc c (List.mem_cons_of_mem _ hcm))

theorem not_mem_mapKeys_mapDelete (m : ConnMap) (s : Socket) : s ∉ mapKeys (mapDelete m s) := by
  rw [mapKeys_mapDelete]
  intro hmem
  have := (List.mem_filter.1 hmem).2
  simp at this

/-- C6. For well-formed `connections`, after `removeConnection(s)` the socket `s` is not stored,
every other socket keeps its identity (and the insertion order of the others is kept), the size
is the previous size minus one when `s` was stored and the previous size otherwise, and after
any later calls none of which is `addConnections(s, _)`, no `broadcast` sends anything to `s`. -/
theorem removeConnection_eviction (toLowerCase : String → String) (now : String)
    (connections : ConnMap) (s : Socket) (hwf : MapWF connections) :
    mapHas (removeConnection connections s) s = false ∧
    (∀ t, t ≠ s → mapGet (removeConnection connections s) t = mapGet connections t) ∧
    mapKeys (removeConnection connections s) = (mapKeys connections).filter (fun k => k != s) ∧
    mapSize (removeConnection connections s)
      = (if mapHas connections s = true then mapSize connections - 1
         else mapSize connections) ∧
    (∀ calls : List Call, (∀ c ∈ calls, Call.notAdd s c) →
      ∀ (readyState : Socket → Nat) (message : Json) (e : Socket),
        sentTo s (broadcast readyState
          (applyCalls toLowerCase now (removeConnection connections s) calls) message e)
          = []) := by
  refine ⟨?_, fun t ht => mapGet_mapDelete_of_ne _ ht, mapKeys_mapDelete _ _, ?_, ?_⟩
  · rw [mapHas_eq_false_iff]; exact not_mem_mapKeys_mapDelete _ _
  · by_cases hmem : s ∈ mapKeys connections
    · have := mapSize_mapDelete_of_mem hwf hmem
      simp only [(mapHas_eq_true_iff _ _).2 hmem, if_true, removeConnection]
      omega
    · have hf : mapHas connections s = false := (mapHas_eq_false_iff _ _).2 hmem
      simp [hf, removeConnection, mapDelete_of_not_mem hmem]
  · intro calls hcalls readyState message e
    exact sentTo_broadcast_of_not_mem _ _ _ _ _
      (not_mem_mapKeys_applyCalls _ _ _ _ _ (not_mem_mapKeys_mapDelete _ _) hcalls)

/-- Witness for C6: `bob` leaves a registry of two; size drops to one and a broadcast from `ann`
reaches nobody. -/
theorem removeConnection_eviction_witness :
    MapWF [(1, ⟨"ann", "red"⟩), (2, ⟨"bob", "blue"⟩)] ∧
    mapSize (removeConnection [(1, ⟨"ann", "red"⟩), (2, ⟨"bob", "blue"⟩)] 2)
      = (if mapHas [(1, ⟨"ann", "red"⟩), (2, ⟨"bob", "blue"⟩)] 2 = true
         then mapSize [(1, ⟨"ann", "red"⟩), (2, ⟨"bob", "blue"⟩)] - 1
         else mapSize [(1, ⟨"ann", "red"⟩), (2, ⟨"bob", "blue"⟩)]) ∧
    sentTo 2 (broadcast (fun _ => WebSocket_OPEN)
      (applyCalls asciiLower "2024-01-01T00:00:00.000Z"
        (removeConnection [(1, ⟨"ann", "red"⟩), (2, ⟨"bob", "blue"⟩)] 2) [])
      (Json.obj [("type", Json.str "chat")]) 1) = [] :=
  ⟨by decide,
    (removeConnection_eviction asciiLower "2024-01-01T00:00:00.000Z"
      [(1, ⟨"ann", "red"⟩), (2, ⟨"bob", "blue"⟩)] 2 (by decide)).2.2.2.1,
    (removeConnection_eviction asciiLower "2024-01-01T00:00:00.000Z"
      [(1, ⟨"ann", "red"⟩), (2, ⟨"bob", "blue"⟩)] 2 (by decide)).2.2.2.2 []
      (fun _ h => absurd h (List.not_mem_nil _)) (fun _ => WebSocket_OPEN)
      (Json.obj [("type", Json.str "chat")]) 1⟩

/-- C7. Calling `removeConnection(s)` twice leaves the same registry as calling it once, and
calling it for a socket that is not stored returns the registry unchanged. The method is a total
function: it returns for every registry and socket. -/
theorem removeConnection_idempotent (connections : ConnMap) (s : Socket) :
    removeConnection (removeConnection connections s) s = removeConnection connections s ∧
    (mapHas connections s = false → removeConnection connections s = connections) := by
  refine ⟨?_, fun h => mapDelete_of_not_mem ((mapHas_eq_false_iff _ _).1 h)⟩
  exact mapDelete_of_not_mem (not_mem_mapKeys_mapDelete _ _)

/-- Witness for C7: removing socket `2`, which was never stored, changes nothing, and a second
removal of socket `1` changes nothing more. -/
theorem removeConnection_idempotent_witness :
    mapHas [(1, ⟨"ann", "red"⟩)] 2 = false ∧
    removeConnection [(1, ⟨"ann", "red"⟩)] 2 = [(1, ⟨"ann", "red"⟩)] ∧
    removeConnection (removeConnection [(1, ⟨"ann", "red"⟩)] 1) 1
      = removeConnection [(1, ⟨"ann", "red"⟩)] 1 :=
  ⟨by decide, (removeConnection_idempotent [(1, ⟨"ann", "red"⟩)] 2).2 (by decide),
    (removeConnection_idempotent [(1, ⟨"ann", "red"⟩)] 1).1⟩

/-! ## Rejection payload and tie-break -/

/-- C8. With `ann`/`red` stored, admitting `ann`/`blue` on socket `2` is rejected with one
message whose reason is under the key `message`: the object has no `text` field. -/
theorem username_rejection_has_no_text_field :
    sentTo 2 (addConnections asciiLower "2024-01-01T00:00:00.000Z" [(1, ⟨"ann", "red"⟩)] 2
        ⟨"ann", "blue"⟩).2
      = [Json.obj [("type", Json.str "error"),
                   ("message", Json.str "user with this name already exists"),
                   ("timestamp", Json.str "2024-01-01T00:00:00.000Z")]] ∧
    (Json.obj [("type", Json.str "error"),
               ("message", Json.str "user with this name already exists"),
               ("timestamp", Json.str "2024-01-01T00:00:00.000Z")]).field? "text" = none :=
  ⟨rfl, rfl⟩

/-- C9, as stated, fails: with `ann`/`red` stored, the candidate `Ann`/`RED` collides on both
fields and the one message it is sent is the duplicate-colour error, which does not carry the
duplicate-username reason. -/
theorem double_collision_reports_color :
    (∃ c ∈ mapValues [(1, ⟨"ann", "red"⟩)],
      asciiLower c.username = asciiLower (⟨"Ann", "RED"⟩ : User).username) ∧
    (∃ c ∈ mapValues [(1, ⟨"ann", "red"⟩)],
      asciiLower c.color = asciiLower (⟨"Ann", "RED"⟩ : User).color) ∧
    sentTo 2 (addConnections asciiLower "2024-01-01T00:00:00.000Z" [(1, ⟨"ann", "red"⟩)] 2
        ⟨"Ann", "RED"⟩).2 = [colorError "2024-01-01T00:00:00.000Z"] ∧
    ¬ ∃ e, sentTo 2 (addConnections asciiLower "2024-01-01T00:00:00.000Z"
        [(1, ⟨"ann", "red"⟩)] 2 ⟨"Ann", "RED"⟩).2 = [e] ∧
      carriesReason e "user with this name already exists" := by
  refine ⟨⟨⟨"ann", "red"⟩, by simp [mapValues], by decide⟩,
    ⟨⟨"ann", "red"⟩, by simp [mapValues], by decide⟩, rfl, ?_⟩
  rintro ⟨e, he, hc⟩
  have hsent : sentTo 2 (addConnections asciiLower "2024-01-01T00:00:00.000Z"
      [(1, ⟨"ann", "red"⟩)] 2 ⟨"Ann", "RED"⟩).2 = [colorError "2024-01-01T00:00:00.000Z"] := rfl
  rw [hsent] at he
  have hee : colorError "2024-01-01T00:00:00.000Z" = e := by
    injection he
  subst hee
  have htext : (colorError "2024-01-01T00:00:00.000Z").field? "text"
      = some (Json.str "user with this color already exists") := rfl
  have hmsg : (colorError "2024-01-01T00:00:00.000Z").field? "message" = none := rfl
  rcases hc with h | h
  · rw [htext] at h
    injection h with h
    injection h with h
    exact absurd h (by decide)
  · rw [hmsg] at h
    cases h

/-- C9, amended. When the candidate collides on both fields, `addConnections` leaves
`connections` as it was and reports on the first stored connection, in insertion order, that
collides on either field: the duplicate-colour error when that connection has the candidate
colour, and the duplicate-username reason otherwise. The report is a function of the registry
contents, their insertion order, and the candidate. -/
theorem double_collision_first_match (toLowerCase : String → String) (now : String)
    (connections : ConnMap) (socket : Socket) (user : User)
    (hname : ∃ c ∈ mapValues connections,
      toLowerCase c.username = toLowerCase user.username)
    (hcolor : ∃ c ∈ mapValues connections, toLowerCase c.color = toLowerCase user.color) :
    ∃ c e, (mapValues connections).find? (fun c => decide (collides toLowerCase user c))
        = some c ∧
      addConnections toLowerCase now connections socket user
        = (connections, [Event.send socket e, Event.close socket]) ∧
      (toLowerCase c.color = toLowerCase user.color →
        e.field? "text" = some (Json.str "user with this color already exists")) ∧
      (toLowerCase c.color ≠ toLowerCase user.color →
        carriesReason e "user with this name already exists") := by
  obtain ⟨d, hd, hdc⟩ := hcolor
  obtain ⟨_, _, _⟩ := hname
  obtain ⟨c, e, hfind, heq, hcol, hnm⟩ :=
    addConnections_of_collision toLowerCase now connections socket user ⟨d, hd, Or.inl hdc⟩
  refine ⟨c, e, hfind, heq, fun h => ?_, fun h => ?_⟩
  · rw [hcol h]; rfl
  · rw [hnm h]; exact Or.inr rfl

/-- Witness for the amended C9: `ann`/`red` then `bob`/`blue` are stored; the candidate
`bob`/`red` collides with the second on the username and with the first on the colour. -/
theorem double_collision_first_match_witness :
    (∃ c ∈ mapValues [(1, ⟨"ann", "red"⟩), (2, ⟨"bob", "blue"⟩)],
      asciiLower c.username = asciiLower (⟨"bob", "red"⟩ : User).username) ∧
    (∃ c ∈ mapValues [(1, ⟨"ann", "red"⟩), (2, ⟨"bob", "blue"⟩)],
      asciiLower c.color = asciiLower (⟨"bob", "red"⟩ : User).color) ∧
    ∃ c e, (mapValues [(1, ⟨"ann", "red"⟩), (2, ⟨"bob", "blue"⟩)]).find?
          (fun c => decide (collides asciiLower ⟨"bob", "red"⟩ c)) = some c ∧
      addConnections asciiLower "2024-01-01T00:00:00.000Z"
          [(1, ⟨"ann", "red"⟩), (2, ⟨"bob", "blue"⟩)] 3 ⟨"bob", "red"⟩
        = ([(1, ⟨"ann", "red"⟩), (2, ⟨"bob", "blue"⟩)], [Event.send 3 e, Event.close 3]) ∧
      (asciiLower c.color = asciiLower (⟨"bob", "red"⟩ : User).color →
        e.field? "text" = some (Json.str "user with this color already exists")) ∧
      (asciiLower c.color ≠ asciiLower (⟨"bob", "red"⟩ : User).color →
        carriesReason e "user with this name already exists") :=
  ⟨⟨⟨"bob", "blue"⟩, by simp [mapValues], by decide⟩,
    ⟨⟨"ann", "red"⟩, by simp [mapValues], by decide⟩,
    double_collision_first_match asciiLower "2024-01-01T00:00:00.000Z"
      [(1, ⟨"ann", "red"⟩), (2, ⟨"bob", "blue"⟩)] 3 ⟨"bob", "red"⟩
      ⟨⟨"bob", "blue"⟩, by simp [mapValues], by decide⟩
      ⟨⟨"ann", "red"⟩, by simp [mapValues], by decide⟩⟩

/-! ## Messages on a socket that is not stored -/

/-- C10. Socket `1` is admitted as `ann`/`red`; socket `2` asks for `ann`/`blue`, is rejected
and closed, and is never stored. A valid chat frame that then arrives on socket `2` is sent to
socket `1`. The same happens for socket `3`, admitted as `bob`/`blue` and then removed by its
`close` listener. In both runs `connections` ends as the single entry of socket `1`. -/
theorem message_on_unstored_socket_is_broadcast :
    (Srv.run demoEnv Srv.init
        [Input.connect 1 "/?username=ann&color=red" ⟨"ann", "red"⟩,
         Input.connect 2 "/?username=ann&color=blue" ⟨"ann", "blue"⟩,
         Input.message 2 chatText]).2
      = [Event.send 1 (joinedMsg 1),
         Event.send 2 (usernameError "2024-01-01T00:00:00.000Z"), Event.close 2,
         Event.send 1 chatMsg] ∧
    (Srv.run demoEnv Srv.init
        [Input.connect 1 "/?username=ann&color=red" ⟨"ann", "red"⟩,
         Input.connect 2 "/?username=ann&color=blue" ⟨"ann", "blue"⟩,
         Input.message 2 chatText]).1.connections = [(1, ⟨"ann", "red"⟩)] ∧
    (Srv.run demoEnv Srv.init
        [Input.connect 1 "/?username=ann&color=red" ⟨"ann", "red"⟩,
         Input.connect 3 "/?username=bob&color=blue" ⟨"bob", "blue"⟩,
         Input.close 3,
         Input.message 3 chatText]).2
      = [Event.send 1 (joinedMsg 1), Event.send 3 (joinedMsg 2), Event.send 1 chatMsg] ∧
    (Srv.run demoEnv Srv.init
        [Input.connect 1 "/?username=ann&color=red" ⟨"ann", "red"⟩,
         Input.connect 3 "/?username=bob&color=blue" ⟨"bob", "blue"⟩,
         Input.close 3,
         Input.message 3 chatText]).1.connections = [(1, ⟨"ann", "red"⟩)] :=
  ⟨rfl, rfl, rfl, rfl⟩

end EdaWorkshops
